import Mathlib

/-!
Verification development for the sequence-alignment core of this repository
(the `cogent3.core.alignment` module: `SequenceCollection`, `Alignment`,
`ArrayAlignment`, `make_gap_filter` and the input-classification helpers).
The module itself is not present in the checked-out sources; only its test
suite (`tests/test_core/test_alignment.py`) is.  The definitions below are
therefore shallow models built from the specification, with the repository's
own tests used as the authority wherever they pin concrete behaviour.

Real-valued thresholds (gap fractions) are modelled as exact fractions
(integer numerator over positive denominator), with comparisons by
cross-multiplication.  Object identity (Python `id()`), which several
claims speak about, is modelled explicitly: operations that may return
"the very same object" return a result carrying an `isSelf` flag, and
member sequences carry an `oid` tag so that "the identical stored object"
is expressible.
-/

namespace Cogent3

/-- An exact fraction threshold `num / den`, modelling the real-valued
fraction parameters of the alignment API (e.g. `allowed_gap_frac`). -/
structure Frac where
  num : Int
  den : Nat
deriving DecidableEq, Repr

/-- The comparison `a / b ≤ f`, by cross-multiplication. -/
def fracLe (a b : Nat) (f : Frac) : Bool := (a : Int) * f.den ≤ f.num * b

/-- The comparison `a / b > f`, by cross-multiplication. -/
def fracGt (a b : Nat) (f : Frac) : Bool := f.num * b < (a : Int) * f.den

/-- A symbol is a gap symbol.  The tests exercise the plain `-` gap. -/
def isGap (c : Char) : Bool := c = '-'

/-- Per-sequence gap vector, as in `Sequence.gap_vector`: one boolean per
position, `true` at gap positions. -/
def gapVector (s : List Char) : List Bool := s.map isGap

/-- Number of positions at which two boolean vectors disagree
(`sum(seq_gaps != template_gaps)`). -/
def mismatchCount (a b : List Bool) : Nat :=
  (List.zipWith (fun x y => x != y) a b).count true

/-- Length of the longest run of consecutive `true` entries. -/
def maxRun (l : List Bool) : Nat :=
  (l.foldl (fun p x => if x then (p.1 + 1, max p.2 (p.1 + 1)) else (0, p.2)) (0, 0)).2

/-- Positions where the candidate is gapped but the template is not
(a "gap run" of the candidate relative to the template). -/
def gapOnlyIn (seqG tmplG : List Bool) : List Bool :=
  List.zipWith (fun s t => s && !t) seqG tmplG

/-- Modelled from the spec: the gap-filter policy of §4.5 / `make_gap_filter`
(`cogent3.core.alignment`, absent from the sources).  Built from a template
(reference) sequence, an allowed gap fraction and an allowed mismatch run
length, it accepts a candidate when the gap-vs-nongap mismatch fraction is
at most the allowed fraction and no run of gaps (in either direction:
candidate gapped where template is not, or template gapped where candidate
is not) reaches the allowed run length — strict `<` on the run boundary. -/
def make_gap_filter (template : List Char) (gapFraction : Frac) (gapRun : Nat)
    (seq : List Char) : Bool :=
  let tg := gapVector template
  let sg := gapVector seq
  if fracGt (mismatchCount sg tg) seq.length gapFraction then false
  else if gapRun ≤ maxRun (gapOnlyIn sg tg) then false
  else if gapRun ≤ maxRun (gapOnlyIn tg sg) then false
  else true

/-- The reference sequence of the `make_gap_filter` test (`s1`). -/
def seqS1 : List Char := "UC-----CU---C".toList

/-- The candidate sequence of the `make_gap_filter` test (`s3`). -/
def seqS3 : List Char := "UUCCUUCUU-UUC".toList

/-- A stored member of a collection: a name, an object-identity tag (two
entries with the same `oid` model the very same Python object) and the
sequence data. -/
structure SeqEntry where
  name : String
  oid : Nat
  seq : List Char
deriving DecidableEq, Repr

/-- The ragged sequence container: the `named_seqs` mapping together with
the display order, modelled as the ordered list of stored entries. -/
structure SequenceCollection where
  seqs : List SeqEntry
deriving DecidableEq, Repr

/-- Number of gap symbols in a sequence. -/
def gapCount (s : List Char) : Nat := s.countP isGap

/-- The result of a collection operation that may return the receiver
itself: `isSelf = true` means the very same object was handed back, not a
fresh copy. -/
structure CollectionResult where
  isSelf : Bool
  value : SequenceCollection
deriving DecidableEq, Repr

/-- Modelled from the spec (§4.2 `omit_gap_seqs`; `cogent3.core.alignment`
is absent from the sources): keeps exactly the sequences whose gap fraction
is at most `allowedGapFrac`.  Per the repository's own tests
(`test_omit_gap_seqs`, `assertNotSameObj`), the result is always a freshly
constructed collection, even when every sequence is kept — on this point
the tests override the spec's identity sentence. -/
def omit_gap_seqs (c : SequenceCollection) (allowedGapFrac : Frac) :
    CollectionResult :=
  ⟨false, ⟨c.seqs.filter fun e => fracLe (gapCount e.seq) e.seq.length allowedGapFrac⟩⟩

/-- Number of alignment columns: the maximum member length. -/
def numCols (c : SequenceCollection) : Nat :=
  (c.seqs.map fun e => e.seq.length).foldr max 0

/-- Number of member sequences gapped at column `i` (out-of-range positions
count as non-gap). -/
def colGapCount (c : SequenceCollection) (i : Nat) : Nat :=
  c.seqs.countP fun e => isGap (e.seq.getD i 'A')

/-- Columns whose gap fraction across the members exceeds the disallowed
fraction — the "gap-causing-position voting scheme" of the spec. -/
def excessiveCols (c : SequenceCollection) (disallowedFrac : Frac) : List Nat :=
  (List.range (numCols c)).filter fun i =>
    fracGt (colGapCount c i) c.seqs.length disallowedFrac

/-- A sequence is bad when it carries a non-gap character inside a column
with an excessive gap fraction, or (when `excludeJustGap` is set) when it
consists entirely of gaps. -/
def isBadSeq (c : SequenceCollection) (disallowedFrac : Frac)
    (excludeJustGap : Bool) (e : SeqEntry) : Bool :=
  (excessiveCols c disallowedFrac).any (fun i => !isGap (e.seq.getD i '-')) ||
  (excludeJustGap && !e.seq.isEmpty && e.seq.all isGap)

/-- Modelled from the spec (§4.2 `omit_bad_seqs`; `cogent3.core.alignment`
is absent from the sources): removes the sequences responsible for
excessively gapped columns and, when `excludeJustGap` is set, the all-gap
sequences; per the spec and the test `test_omit_bad_seqs`
(`id(result) == id(aln)`), the very same object is handed back when no
sequence needs removal. -/
def omit_bad_seqs (c : SequenceCollection) (disallowedFrac : Frac)
    (excludeJustGap : Bool) : CollectionResult :=
  if c.seqs.all (fun e => !isBadSeq c disallowedFrac excludeJustGap e) then
    ⟨true, c⟩
  else
    ⟨false, ⟨c.seqs.filter fun e => !isBadSeq c disallowedFrac excludeJustGap e⟩⟩

/-- The `self.gaps` collection of the test suite:
`{'a': 'AAAAAAA', 'b': 'A--A-AA', 'c': 'AA-----'}`. -/
def gapsColl : SequenceCollection :=
  ⟨[⟨"a", 0, "AAAAAAA".toList⟩, ⟨"b", 1, "A--A-AA".toList⟩,
    ⟨"c", 2, "AA-----".toList⟩]⟩

/-- First stored entry with the given name — the object the `named_seqs`
mapping associates to it. -/
def lookupSeq (c : SequenceCollection) (n : String) : Option SeqEntry :=
  c.seqs.find? fun e => e.name = n

/-- Modelled from the spec (§4.3 `iter_seqs`; `cogent3.core.alignment` is
absent from the sources): yields the stored sequence objects; when a
`seq_order` is given, in exactly that order (repeats allowed), each yielded
item being the very object held in the name→sequence mapping (`none`
models the lookup failure for an unknown name). -/
def iter_seqs (c : SequenceCollection) (seqOrder : Option (List String)) :
    List (Option SeqEntry) :=
  match seqOrder with
  | none => c.seqs.map some
  | some order => order.map (lookupSeq c)

/-- The `self.ragged_padded` collection of the test suite, with explicit
name order `['a', 'b', 'c']`. -/
def raggedPadded : SequenceCollection :=
  ⟨[⟨"a", 10, "AAAAAA".toList⟩, ⟨"b", 11, "AAA---".toList⟩,
    ⟨"c", 12, "AAAA--".toList⟩]⟩

/-- Columns kept by `omit_gap_pos`: those whose gap fraction across the
rows does not exceed the allowed fraction. -/
def keptCols (c : SequenceCollection) (allowed : Frac) : List Nat :=
  (List.range (numCols c)).filter fun i =>
    fracLe (colGapCount c i) c.seqs.length allowed

/-- Modelled from the spec (§4.3 `omit_gap_pos`; `cogent3.core.alignment`
is absent from the sources): drops every column whose gap fraction across
rows exceeds the threshold, and returns the sentinel `none` — rather than
raising or returning an empty alignment — when no column survives. -/
def omit_gap_pos (c : SequenceCollection) (allowed : Frac) :
    Option SequenceCollection :=
  if keptCols c allowed = [] then none
  else some ⟨c.seqs.map fun e =>
    ⟨e.name, e.oid, (keptCols c allowed).map fun i => e.seq.getD i '-'⟩⟩

/-- The `self.end_gaps` alignment of the test suite:
`{'a': '--A-BC-', 'b': '-CB-A--', 'c': '--D-EF-'}`. -/
def endGaps : SequenceCollection :=
  ⟨[⟨"a", 20, "--A-BC-".toList⟩, ⟨"b", 21, "-CB-A--".toList⟩,
    ⟨"c", 22, "--D-EF-".toList⟩]⟩

/-- The six-row alignment of `test_omit_gap_pos`: `end_gaps` plus an
all-gap row `d`, an ungapped row `e` and a partially gapped row `f`. -/
def sixRowAln : SequenceCollection :=
  ⟨[⟨"a", 20, "--A-BC-".toList⟩, ⟨"b", 21, "-CB-A--".toList⟩,
    ⟨"c", 22, "--D-EF-".toList⟩, ⟨"d", 23, "-------".toList⟩,
    ⟨"e", 24, "XYZXYZX".toList⟩, ⟨"f", 25, "AB-CDEF".toList⟩]⟩

/-- The two interchangeable alignment payloads of §3: the dense
(`ArrayAlignment`) form stores a name-count × column-count grid of integer
symbol codes; the object (`Alignment`) form stores annotation-capable
character rows. -/
inductive AlnData
  | dense (grid : List (List Nat))
  | obj (rows : List (List Char))
deriving DecidableEq, Repr

/-- An alignment: the name order plus one of the two payloads. -/
structure Aln where
  names : List String
  data : AlnData
deriving DecidableEq, Repr

/-- Symbol → integer code, per the alphabet collaborator (§6): the code of
a symbol is its index in the alphabet's symbol order. -/
def encode (alpha : List Char) (c : Char) : Nat := alpha.indexOf c

/-- Integer code → symbol, the other direction of the §6 bijection. -/
def decode (alpha : List Char) (n : Nat) : Char := alpha.getD n '?'

/-- Whether the alignment currently uses the dense (`ArrayAlignment`)
representation. -/
def isArrayAln (a : Aln) : Bool :=
  match a.data with
  | .dense _ => true
  | .obj _ => false

/-- The character rows of an alignment: the object payload directly, or the
dense grid decoded through the alphabet. -/
def alnRows (alpha : List Char) (a : Aln) : List (List Char) :=
  match a.data with
  | .dense g => g.map fun r => r.map (decode alpha)
  | .obj rows => rows

/-- `todict`: the name → sequence-content association, in name order. -/
def todict (alpha : List Char) (a : Aln) : List (String × List Char) :=
  a.names.zip (alnRows alpha a)

/-- Modelled from the spec (§4.3 `to_type`; `cogent3.core.alignment` is
absent from the sources): when the requested representation matches the
current one the very same object is returned (second component `true`);
otherwise the opposite representation is constructed through the alphabet
mapping, preserving names, content and order. -/
def to_type (alpha : List Char) (a : Aln) (arrayAlign : Bool) : Aln × Bool :=
  match a.data, arrayAlign with
  | .dense _, true => (a, true)
  | .obj _, false => (a, true)
  | .dense g, false =>
      (⟨a.names, .obj (g.map fun r => r.map (decode alpha))⟩, false)
  | .obj rows, true =>
      (⟨a.names, .dense (rows.map fun r => r.map (encode alpha))⟩, false)

/-- A valid alignment over an alphabet: dense codes index into the
alphabet; object characters belong to it. -/
@[reducible] def validAln (alpha : List Char) (a : Aln) : Prop :=
  match a.data with
  | .dense g => ∀ r ∈ g, ∀ n ∈ r, n < alpha.length
  | .obj rows => ∀ r ∈ rows, ∀ ch ∈ r, ch ∈ alpha

/-- The gapped DNA symbol order (alphabet plus the gap symbol). -/
@[reducible] def dnaGapAlpha : List Char := "TCAG-".toList

/-- The alignment of `test_to_type`:
`{'seq1': 'ACGTACGTA', 'seq2': 'ACCGAA---', 'seq3': 'ACGTACGTT'}`, in the
object representation. -/
@[reducible] def toTypeAln : Aln :=
  ⟨["seq1", "seq2", "seq3"],
   .obj ["ACGTACGTA".toList, "ACCGAA---".toList, "ACGTACGTT".toList]⟩

/-- Rectangular column count of a list of rows (maximum row length). -/
def rowsLen {α : Type} (rows : List (List α)) : Nat :=
  (rows.map List.length).foldr max 0

/-- The columns of a grid of rows, in positional order — the "transposed
internally, columns contiguous" view the dense representation uses for
per-column operations. -/
def gridPositions {α : Type} (dflt : α) (rows : List (List α)) :
    List (List α) :=
  (List.range (rowsLen rows)).map fun i => rows.map fun r => r.getD i dflt

/-- Per-sequence symbol counts over an alphabet of `alphaLen` codes
(`_get_freqs(index=0)` of the dense representation): entry `k` of row `s`
counts the occurrences of symbol code `k` in sequence `s`. -/
def seqFreqsDense (alphaLen : Nat) (grid : List (List Nat)) :
    List (List Nat) :=
  grid.map fun r => (List.range alphaLen).map fun k => r.count k

/-- Per-position symbol counts (`_get_freqs(index=1)` of the dense
representation): the same counting applied to the grid's columns. -/
def posFreqsDense (alphaLen : Nat) (grid : List (List Nat)) :
    List (List Nat) :=
  seqFreqsDense alphaLen (gridPositions 0 grid)

/-- Per-sequence symbol counts of the object representation: characters
are counted directly, in the alphabet's symbol order. -/
def seqFreqsObj (alpha : List Char) (rows : List (List Char)) :
    List (List Nat) :=
  rows.map fun r => alpha.map fun ch => r.count ch

/-- Per-position symbol counts of the object representation. -/
def posFreqsObj (alpha : List Char) (rows : List (List Char)) :
    List (List Nat) :=
  seqFreqsObj alpha (gridPositions '-' rows)

/-- The DNA symbol order `T, C, A, G` used by the profile tests. -/
@[reducible] def dnaAlpha : List Char := "TCAG".toList

/-- The rows `'TCAG'`, `'CCAC'`, `'AGAT'` of the profile tests. -/
@[reducible] def freqRows : List (List Char) :=
  ["TCAG".toList, "CCAC".toList, "AGAT".toList]

/-- The dense grid of `freqRows`, encoded over `dnaAlpha`. -/
@[reducible] def freqGrid : List (List Nat) :=
  freqRows.map fun r => r.map (encode dnaAlpha)

/-- Modelled from the spec (§6 MolType collaborator): the set of concrete
RNA symbols (and the gap) a symbol may represent, as a bit mask — bit 0 =
`U`, bit 1 = `C`, bit 2 = `A`, bit 3 = `G`, bit 4 = gap.  Ambiguity codes
expand per the IUPAC table; the unknown symbol `?` covers everything. -/
def charMask (c : Char) : Nat :=
  if c = 'U' then 1 else if c = 'C' then 2 else if c = 'A' then 4
  else if c = 'G' then 8 else if c = '-' then 16
  else if c = 'Y' then 3 else if c = 'W' then 5 else if c = 'K' then 9
  else if c = 'M' then 6 else if c = 'S' then 10 else if c = 'R' then 12
  else if c = 'H' then 7 else if c = 'B' then 11 else if c = 'D' then 13
  else if c = 'V' then 14 else if c = 'N' then 15 else 31

/-- Modelled from the spec (§6): the minimal-covering-ambiguity-code
function — the least degenerate symbol covering a set of concrete symbols;
an all-gap set gives the gap symbol, and a set mixing the gap with
anything else has no dedicated code and falls back to the unknown
symbol `?`. -/
def maskToSym (m : Nat) : Char :=
  if m = 1 then 'U' else if m = 2 then 'C' else if m = 4 then 'A'
  else if m = 8 then 'G' else if m = 16 then '-'
  else if m = 3 then 'Y' else if m = 5 then 'W' else if m = 9 then 'K'
  else if m = 6 then 'M' else if m = 10 then 'S' else if m = 12 then 'R'
  else if m = 7 then 'H' else if m = 11 then 'B' else if m = 13 then 'D'
  else if m = 14 then 'V' else if m = 15 then 'N' else '?'

/-- Modelled from the spec (§4.3 `iupac_consensus`;
`cogent3.core.alignment` is absent from the sources): per column, the
minimal ambiguity code covering everything the column's symbols may
represent. -/
def iupac_consensus (rows : List (List Char)) : List Char :=
  (gridPositions '-' rows).map fun col =>
    maskToSym (col.foldl (fun m c => m ||| charMask c) 0)

/-- The consensus computed from the dense representation: the code grid is
decoded through the alphabet and the same positional algorithm is
applied. -/
def iupac_consensus_dense (alpha : List Char) (grid : List (List Nat)) :
    List Char :=
  iupac_consensus (grid.map fun r => r.map (decode alpha))

/-- The RNA symbol order, degenerate symbols included, for the dense form
of the consensus test. -/
@[reducible] def rnaAmbigAlpha : List Char := "UCAG-RYWSKMBDHVN?".toList

/-- The five RNA rows of `test_iupac_consensus_RNA`. -/
@[reducible] def consensusRows : List (List Char) :=
  ["UCAGN-UCAGN-UCAGN-UCAGAGCAUN-".toList,
   "UUCCAAGGNN--UUCCAAGGNNAGCAG--".toList,
   "UUCCAAGGNN--UUCCAAGGNNAGCUA--".toList,
   "UUUUCCCCAAAAGGGGNNNN--AGCUA--".toList,
   "UUUUCCCCAAAAGGGGNNNN--AGCUA--".toList]

/-- The shapes an arbitrary constructor input may take, for the input
normalizer (§4.1): existing instances of the three concrete classes, a
mapping, raw text, a list of strings, a nested list of numbers, a list of
pre-built sequence objects (represented by its length), or a numeric
array. -/
inductive PyInput
  | arrayAlnInst (a : Aln)
  | alnInst (a : Aln)
  | collectionInst (c : SequenceCollection)
  | dict (d : List (String × String))
  | text (s : String)
  | strList (l : List String)
  | intLists (l : List (List Int))
  | arraySeqList (n : Nat)
  | ndarray (g : List (List Int))
deriving DecidableEq, Repr

/-- Modelled from the spec (§4.1;
`SequenceCollection._guess_input_type` is absent from the sources):
classifies an input into one of the fixed shape labels with the documented
precedence — existing instances first, then mapping, text (FASTA by the
leading record marker), numeric array, pre-built sequence objects; a list
classifies as `empty` when it has no items, as `fasta` when its first item
carries the record marker, as name/sequence `kv_pairs` when every inner
item has exactly 2 entries, and as `generic` otherwise (in particular when
every inner item has more than 2 entries). -/
def guess_input_type (x : PyInput) : String :=
  match x with
  | .arrayAlnInst _ => "array_aln"
  | .alnInst _ => "aln"
  | .collectionInst _ => "collection"
  | .dict _ => "dict"
  | .text s => if s.startsWith ">" then "fasta" else "generic"
  | .ndarray _ => "array"
  | .arraySeqList n => if n = 0 then "empty" else "array_seqs"
  | .strList l =>
      match l with
      | [] => "empty"
      | s :: _ =>
          if s.startsWith ">" then "fasta"
          else if l.all fun t => t.length = 2 then "kv_pairs"
          else "generic"
  | .intLists l =>
      match l with
      | [] => "empty"
      | _ :: _ => if l.all fun r => r.length = 2 then "kv_pairs" else "generic"

/-- Modelled from the spec (§4.1/§7; `seqs_from_empty` is absent from the
sources): the conversion function of the "empty" shape unconditionally
raises the ingestion error — there is no valid empty collection. -/
def seqs_from_empty (_ : PyInput) :
    Except String (List (List Char) × Option (List String)) :=
  .error "SequenceCollection: no data"

/-- Modelled from the spec (§4.1/§7; `aln_from_empty` is absent from the
sources): the aligned counterpart, also unconditionally an ingestion
error. -/
def aln_from_empty (_ : PyInput) :
    Except String (List (List Nat) × Option (List String)) :=
  .error "Alignment: no data"

end Cogent3

namespace Cogent3

/-- Decoding inverts encoding on alphabet members. -/
theorem decode_encode (alpha : List Char) (c : Char) (hc : c ∈ alpha) :
    decode alpha (encode alpha c) = c := by
  unfold decode encode
  have h : alpha.indexOf c < alpha.length := List.indexOf_lt_length.mpr hc
  rw [List.getD_eq_getElem _ _ h]
  exact List.getElem_indexOf h

/-- Encoding inverts decoding on in-range codes of a duplicate-free
alphabet. -/
theorem encode_decode (alpha : List Char) (hnd : alpha.Nodup) (n : Nat)
    (hn : n < alpha.length) : encode alpha (decode alpha n) = n := by
  unfold decode encode
  rw [List.getD_eq_getElem _ _ hn]
  exact List.indexOf_getElem hnd n hn

/-- Per-row round trip: encoding then decoding a row of alphabet
characters is the identity. -/
theorem row_decode_encode (alpha : List Char) (r : List Char)
    (hr : ∀ ch ∈ r, ch ∈ alpha) :
    (r.map (encode alpha)).map (decode alpha) = r := by
  rw [List.map_map]
  conv_rhs => rw [← List.map_id r]
  exact List.map_congr_left fun ch hch => decode_encode alpha ch (hr ch hch)

/-- Per-row round trip in the other direction: decoding then re-encoding a
row of in-range codes is the identity. -/
theorem row_encode_decode (alpha : List Char) (hnd : alpha.Nodup)
    (r : List Nat) (hr : ∀ n ∈ r, n < alpha.length) :
    (r.map (decode alpha)).map (encode alpha) = r := by
  rw [List.map_map]
  conv_rhs => rw [← List.map_id r]
  exact List.map_congr_left fun n hn => encode_decode alpha hnd n (hr n hn)

/-- C2: the filter built from `'UC-----CU---C'` with allowed fraction 0.9 and
run length 5 rejects `'UUCCUUCUU-UUC'`, and symmetrically the filter built
from the candidate rejects the reference; rebuilding either filter with run
length 6 accepts — the offending mismatch run has length exactly 5, so a run
exactly equal to the limit fails the candidate (strict `<`, not `≤`). -/
theorem claim2_gap_filter_run_boundary :
    make_gap_filter seqS1 ⟨9, 10⟩ 5 seqS3 = false ∧
    make_gap_filter seqS3 ⟨9, 10⟩ 5 seqS1 = false ∧
    make_gap_filter seqS1 ⟨9, 10⟩ 6 seqS3 = true ∧
    make_gap_filter seqS3 ⟨9, 10⟩ 6 seqS1 = true ∧
    maxRun (gapOnlyIn (gapVector seqS1) (gapVector seqS3)) = 5 := by
  refine ⟨?_, ?_, ?_, ?_, ?_⟩ <;> decide

/-- C1 fails as stated: on the `gaps` collection with threshold 0.99 no
sequence exceeds the allowed gap fraction, yet `omit_gap_seqs` does not
return the identical object — it builds a fresh (equal) collection, exactly
as the test `test_omit_gap_seqs` asserts with `assertNotSameObj`. -/
theorem claim1_counterexample :
    (∀ e ∈ gapsColl.seqs,
      fracLe (gapCount e.seq) e.seq.length ⟨99, 100⟩ = true) ∧
    (omit_gap_seqs gapsColl ⟨99, 100⟩).isSelf = false ∧
    (omit_gap_seqs gapsColl ⟨99, 100⟩).value = gapsColl := by
  refine ⟨?_, ?_, ?_⟩ <;> decide

/-- C1 amended: when no sequence needs removal, `omit_bad_seqs` returns the
identical, unmodified object, while `omit_gap_seqs` always constructs a
fresh collection — equal in content to the original, but never the very
same object. -/
theorem claim1_amended (c : SequenceCollection) (f df : Frac) (ejg : Bool)
    (hg : ∀ e ∈ c.seqs, fracLe (gapCount e.seq) e.seq.length f = true)
    (hb : ∀ e ∈ c.seqs, isBadSeq c df ejg e = false) :
    (omit_gap_seqs c f).isSelf = false ∧
    (omit_gap_seqs c f).value = c ∧
    omit_bad_seqs c df ejg = ⟨true, c⟩ := by
  refine ⟨rfl, ?_, ?_⟩
  · show SequenceCollection.mk _ = c
    cases c with
    | mk seqs =>
      simp only [SequenceCollection.mk.injEq]
      exact List.filter_eq_self.mpr hg
  · unfold omit_bad_seqs
    rw [if_pos]
    exact List.all_eq_true.mpr fun e he => by simp [hb e he]

/-- Witness for the amended C1 at the `gaps` collection. -/
theorem claim1_amended_witness :
    (omit_gap_seqs gapsColl ⟨99, 100⟩).isSelf = false ∧
    (omit_gap_seqs gapsColl ⟨99, 100⟩).value = gapsColl ∧
    omit_bad_seqs gapsColl ⟨9, 10⟩ false = ⟨true, gapsColl⟩ :=
  claim1_amended gapsColl ⟨99, 100⟩ ⟨9, 10⟩ false (by decide) (by decide)

/-- C10: with a `seq_order` that may repeat names, `iter_seqs` yields the
sequences in exactly the given order; the item at each position is whatever
the name→sequence mapping holds for that position's name — the very stored
object — and two occurrences of the same name yield the identical object. -/
theorem claim10_iter_seqs (c : SequenceCollection) (order : List String)
    (i j : Nat) (hi : i < order.length) (hj : j < order.length) :
    (iter_seqs c (some order)).length = order.length ∧
    (iter_seqs c (some order)).getD i none = lookupSeq c (order.getD i "") ∧
    (∀ e, lookupSeq c (order.getD i "") = some e →
      e ∈ c.seqs ∧ e.name = order.getD i "") ∧
    (order.getD i "" = order.getD j "" →
      (iter_seqs c (some order)).getD i none =
        (iter_seqs c (some order)).getD j none) := by
  have hlen : (iter_seqs c (some order)).length = order.length := by
    simp [iter_seqs]
  have hget : ∀ k, k < order.length →
      (iter_seqs c (some order)).getD k none = lookupSeq c (order.getD k "") := by
    intro k hk
    simp [iter_seqs, List.getD_eq_getElem?_getD, List.getElem?_map,
      List.getElem?_eq_getElem hk]
  refine ⟨hlen, hget i hi, ?_, ?_⟩
  · intro e he
    constructor
    · exact List.mem_of_find?_eq_some he
    · have := List.find?_some he
      simpa using this
  · intro hsame
    rw [hget i hi, hget j hj, hsame]

/-- Witness for C10 at the `ragged_padded` collection with
`seq_order = ['b', 'a', 'a']` (positions 1 and 2 repeat the name `a`). -/
theorem claim10_iter_seqs_witness :
    (iter_seqs raggedPadded (some ["b", "a", "a"])).length =
      (["b", "a", "a"] : List String).length ∧
    (iter_seqs raggedPadded (some ["b", "a", "a"])).getD 1 none =
      lookupSeq raggedPadded ((["b", "a", "a"] : List String).getD 1 "") ∧
    (∀ e, lookupSeq raggedPadded ((["b", "a", "a"] : List String).getD 1 "") = some e →
      e ∈ raggedPadded.seqs ∧ e.name = (["b", "a", "a"] : List String).getD 1 "") ∧
    ((["b", "a", "a"] : List String).getD 1 "" =
        (["b", "a", "a"] : List String).getD 2 "" →
      (iter_seqs raggedPadded (some ["b", "a", "a"])).getD 1 none =
        (iter_seqs raggedPadded (some ["b", "a", "a"])).getD 2 none) :=
  claim10_iter_seqs raggedPadded ["b", "a", "a"] 1 2 (by decide) (by decide)

/-- C3: `omit_gap_pos` keeps exactly the columns whose gap fraction across
rows does not exceed the threshold; it returns the sentinel `none` exactly
when every column would be dropped, and otherwise the alignment restricted
to the kept columns; in particular on the 6-row alignment containing an
all-gap row it returns `none` at threshold 0. -/
theorem claim3_omit_gap_pos (c : SequenceCollection) (allowed : Frac) :
    (omit_gap_pos c allowed = none ↔
      ∀ i < numCols c, fracLe (colGapCount c i) c.seqs.length allowed = false) ∧
    (∀ i, i ∈ keptCols c allowed ↔
      i < numCols c ∧ fracLe (colGapCount c i) c.seqs.length allowed = true) ∧
    (∀ out, omit_gap_pos c allowed = some out →
      out.seqs = c.seqs.map fun e =>
        ⟨e.name, e.oid, (keptCols c allowed).map fun i => e.seq.getD i '-'⟩) ∧
    omit_gap_pos sixRowAln ⟨0, 1⟩ = none := by
  refine ⟨?_, ?_, ?_, by decide⟩
  · unfold omit_gap_pos
    split_ifs with h
    · simp only [true_iff]
      intro i hi
      by_contra hbad
      have hmem : i ∈ keptCols c allowed := by
        unfold keptCols
        rw [List.mem_filter, List.mem_range]
        exact ⟨hi, by simpa using hbad⟩
      rw [h] at hmem
      exact absurd hmem (List.not_mem_nil i)
    · simp only [reduceCtorEq, false_iff, not_forall]
      obtain ⟨i, hi⟩ := List.exists_mem_of_ne_nil (keptCols c allowed) h
      unfold keptCols at hi
      rw [List.mem_filter, List.mem_range] at hi
      exact ⟨i, hi.1, by simp [hi.2]⟩
  · intro i
    unfold keptCols
    rw [List.mem_filter, List.mem_range]
  · intro out hout
    unfold omit_gap_pos at hout
    split_ifs at hout with h
    injection hout with hout
    rw [← hout]

/-- Witness for C3: the 6-row alignment yields `none` at threshold 0 (every
column has a gap, via the all-gap row `d`), while `end_gaps` at threshold
0.4 keeps columns 2, 4, 5 — giving `{'a': 'ABC', 'b': 'BA-', 'c': 'DEF'}`
as in the test. -/
theorem claim3_omit_gap_pos_witness :
    omit_gap_pos sixRowAln ⟨0, 1⟩ = none ∧
    (∀ i < numCols sixRowAln,
      fracLe (colGapCount sixRowAln i) sixRowAln.seqs.length ⟨0, 1⟩ = false) ∧
    (⟨[⟨"a", 20, "ABC".toList⟩, ⟨"b", 21, "BA-".toList⟩,
       ⟨"c", 22, "DEF".toList⟩]⟩ : SequenceCollection).seqs =
      endGaps.seqs.map (fun e =>
        ⟨e.name, e.oid, (keptCols endGaps ⟨2, 5⟩).map fun i => e.seq.getD i '-'⟩) :=
  ⟨(claim3_omit_gap_pos sixRowAln ⟨0, 1⟩).2.2.2,
   (claim3_omit_gap_pos sixRowAln ⟨0, 1⟩).1.mp
     (claim3_omit_gap_pos sixRowAln ⟨0, 1⟩).2.2.2,
   (claim3_omit_gap_pos endGaps ⟨2, 5⟩).2.2.1
     ⟨[⟨"a", 20, "ABC".toList⟩, ⟨"b", 21, "BA-".toList⟩,
       ⟨"c", 22, "DEF".toList⟩]⟩ (by decide)⟩

/-- C4: converting a valid alignment to the other representation and back
(`to_type(array_align=X)` then `to_type(array_align=not X)`) preserves
`todict`, i.e. names and content, whatever the starting representation and
either boolean `X`. -/
theorem claim4_to_type_roundtrip (alpha : List Char) (a : Aln) (X : Bool)
    (hnd : alpha.Nodup) (hv : validAln alpha a) :
    todict alpha (to_type alpha (to_type alpha a X).1 (!X)).1 =
      todict alpha a := by
  cases a with
  | mk names d =>
    cases d with
    | dense g =>
      cases X with
      | true => rfl
      | false =>
        simp only [to_type, Bool.not_false, todict, alnRows]
        congr 1
        have hrows :
            (g.map fun r => r.map (decode alpha)).map
              (fun r => r.map (encode alpha)) = g := by
          rw [List.map_map]
          conv_rhs => rw [← List.map_id g]
          exact List.map_congr_left fun r hr =>
            row_encode_decode alpha hnd r (hv r hr)
        rw [hrows]
    | obj rows =>
      have hrows : (rows.map fun r => r.map (encode alpha)).map
          (fun r => r.map (decode alpha)) = rows := by
        rw [List.map_map]
        conv_rhs => rw [← List.map_id rows]
        exact List.map_congr_left fun r hr =>
          row_decode_encode alpha r (hv r hr)
      cases X with
      | true =>
        simp only [to_type, Bool.not_true, todict, alnRows]
        rw [List.map_map] at hrows
        rw [List.map_map, hrows]
      | false =>
        simp only [to_type, Bool.not_false, todict, alnRows]
        rw [List.map_map] at hrows
        rw [List.map_map, hrows]

/-- Witness for C4 on the alignment of `test_to_type`
(`{'seq1': 'ACGTACGTA', 'seq2': 'ACCGAA---', 'seq3': 'ACGTACGTT'}`) over
the gapped DNA alphabet, starting from the object representation with
`X = true`. -/
theorem claim4_to_type_roundtrip_witness :
    todict dnaGapAlpha
      (to_type dnaGapAlpha (to_type dnaGapAlpha toTypeAln true).1 (!true)).1 =
      todict dnaGapAlpha toTypeAln :=
  claim4_to_type_roundtrip dnaGapAlpha toTypeAln true (by decide) (by decide)

/-- C7: `to_type` returns the very same object (no copy) when the requested
representation already matches the current one, and otherwise a fresh
instance of the opposite representation preserving names, content and
order. -/
theorem claim7_to_type_identity (alpha : List Char) (a : Aln) (X : Bool)
    (hv : validAln alpha a) :
    (isArrayAln a = X → to_type alpha a X = (a, true)) ∧
    (isArrayAln a ≠ X →
      (to_type alpha a X).2 = false ∧
      isArrayAln (to_type alpha a X).1 = X ∧
      (to_type alpha a X).1.names = a.names ∧
      todict alpha (to_type alpha a X).1 = todict alpha a) := by
  cases a with
  | mk names d =>
    cases d with
    | dense g =>
      cases X with
      | true => exact ⟨fun _ => rfl, fun h => absurd rfl h⟩
      | false =>
        refine ⟨fun h => absurd h (by simp [isArrayAln]), fun _ => ?_⟩
        exact ⟨rfl, rfl, rfl, rfl⟩
    | obj rows =>
      cases X with
      | true =>
        refine ⟨fun h => absurd h (by simp [isArrayAln]), fun _ => ?_⟩
        refine ⟨rfl, rfl, rfl, ?_⟩
        simp only [to_type, todict, alnRows]
        congr 1
        rw [List.map_map]
        conv_rhs => rw [← List.map_id rows]
        exact List.map_congr_left fun r hr =>
          row_decode_encode alpha r (hv r hr)
      | false => exact ⟨fun _ => rfl, fun h => absurd rfl h⟩

/-- Witness for C7 on the `test_to_type` alignment: requesting the current
(object) representation returns the identical object; requesting the dense
one returns a fresh `ArrayAlignment` with the same names and `todict`. -/
theorem claim7_to_type_identity_witness :
    to_type dnaGapAlpha toTypeAln false = (toTypeAln, true) ∧
    ((to_type dnaGapAlpha toTypeAln true).2 = false ∧
      isArrayAln (to_type dnaGapAlpha toTypeAln true).1 = true ∧
      (to_type dnaGapAlpha toTypeAln true).1.names = toTypeAln.names ∧
      todict dnaGapAlpha (to_type dnaGapAlpha toTypeAln true).1 =
        todict dnaGapAlpha toTypeAln) :=
  ⟨(claim7_to_type_identity dnaGapAlpha toTypeAln false (by decide)).1 rfl,
   (claim7_to_type_identity dnaGapAlpha toTypeAln true (by decide)).2
     (by decide)⟩

/-- C5: for the alignment of `'TCAG'`, `'CCAC'`, `'AGAT'` over the symbol
order `T, C, A, G`, the dense and object representations both produce the
per-sequence profile `[[1,1,1,1],[0,3,1,0],[1,0,2,1]]` and the
per-position profile `[[1,1,1,0],[0,2,0,1],[0,0,3,0],[1,1,0,1]]`,
bit-for-bit identical. -/
theorem claim5_profiles_agree :
    seqFreqsDense 4 freqGrid = [[1,1,1,1], [0,3,1,0], [1,0,2,1]] ∧
    posFreqsDense 4 freqGrid = [[1,1,1,0], [0,2,0,1], [0,0,3,0], [1,1,0,1]] ∧
    seqFreqsObj dnaAlpha freqRows = [[1,1,1,1], [0,3,1,0], [1,0,2,1]] ∧
    posFreqsObj dnaAlpha freqRows =
      [[1,1,1,0], [0,2,0,1], [0,0,3,0], [1,1,0,1]] := by
  refine ⟨?_, ?_, ?_, ?_⟩ <;> decide

/-- C6: `iupac_consensus` on the five-row RNA alignment of the regression
test returns exactly `'UYHBN?BSNN??KBVSN?NN??AGCWD?-'`, from the object
representation and from the dense representation alike. -/
theorem claim6_iupac_consensus_golden :
    iupac_consensus consensusRows =
      "UYHBN?BSNN??KBVSN?NN??AGCWD?-".toList ∧
    iupac_consensus_dense rnaAmbigAlpha
        (consensusRows.map fun r => r.map (encode rnaAmbigAlpha)) =
      "UYHBN?BSNN??KBVSN?NN??AGCWD?-".toList := by
  constructor <;> decide

/-- C8: a nonempty list whose inner elements each have exactly 2 items is
classified as name/sequence key-value pairs, while one whose inner
elements each have more than 2 items is classified as generic sequence
data. -/
theorem claim8_guess_nested_lists (l : List (List Int)) (hne : l ≠ []) :
    ((∀ r ∈ l, r.length = 2) →
      guess_input_type (.intLists l) = "kv_pairs") ∧
    ((∀ r ∈ l, 2 < r.length) →
      guess_input_type (.intLists l) = "generic") := by
  cases l with
  | nil => exact absurd rfl hne
  | cons a t =>
    constructor
    · intro h
      simp only [guess_input_type]
      rw [if_pos]
      exact List.all_eq_true.mpr fun r hr => by simp [h r hr]
    · intro h
      simp only [guess_input_type]
      rw [if_neg]
      intro hall
      have h1 := List.all_eq_true.mp hall a (List.mem_cons_self a t)
      have h2 := h a (List.mem_cons_self a t)
      simp only [decide_eq_true_eq] at h1
      omega

/-- Witness for C8 at the test's inputs `[[1,2],[4,5]]` (pairs) and
`[[1,2,3],[4,5,6]]` (generic). -/
theorem claim8_guess_nested_lists_witness :
    guess_input_type (.intLists [[1, 2], [4, 5]]) = "kv_pairs" ∧
    guess_input_type (.intLists [[1, 2, 3], [4, 5, 6]]) = "generic" :=
  ⟨(claim8_guess_nested_lists [[1, 2], [4, 5]] (by decide)).1 (by decide),
   (claim8_guess_nested_lists [[1, 2, 3], [4, 5, 6]] (by decide)).2
     (by decide)⟩

/-- C9: for every input, the empty-shape conversion functions
`seqs_from_empty` and `aln_from_empty` raise the ingestion error — there
is no input on which either returns a value. -/
theorem claim9_empty_always_error (x : PyInput) :
    seqs_from_empty x = Except.error "SequenceCollection: no data" ∧
    aln_from_empty x = Except.error "Alignment: no data" :=
  ⟨rfl, rfl⟩

end Cogent3
